import Mathlib

/-!
# Verification of the sverchok node kernels

Shallow embedding of the computational kernels of three node files:

* `nodes/modifier_change/bend_along_surface.py` (`SvBendAlongSurfaceNode`):
  the surface-bend kernel (`get_uv`, the per-object body of `process`).
* `nodes/solid/solid_select.py` (`SvSelectSolidNode`): the solid-element
  selection kernel (`map_percent`, the `_by_*` primary-mask functions and
  `calc_mask` with its cross-category derivation).
* `nodes/vertex/math_mk2.py` (`SvVectorMathNodeMK2`): the vector-math
  recursion (`recurse_fxy`) and the error-discarding `process` body.

Python floats are modelled as exact rationals (`ℚ`); fallible Python code
(division by zero, `min`/`max` of an empty list, indexing an empty list,
unknown-criteria exceptions) is modelled with `Except PyError`.  External
sverchok utilities that are not part of this repository snapshot
(`Spline2D`, `diameter`, `PlaneEquation`, `LineEquation`,
`linear_approximation`, `SvSolidTopology`) are modelled from the spec; each
such definition carries a doc comment starting with `Modelled from the
spec:`.
-/

namespace Sverchok

/-- A 3D point / vector, componentwise exact rationals. -/
abbrev Vec3 := ℚ × ℚ × ℚ

/-- Python-style indexing `v[i]` into a 3-tuple (only indices 0,1,2 occur). -/
def coord (v : Vec3) : Nat → ℚ
  | 0 => v.1
  | 1 => v.2.1
  | _ => v.2.2

/-- Dot product of 3-vectors. -/
def dot3 (a b : Vec3) : ℚ := a.1 * b.1 + a.2.1 * b.2.1 + a.2.2 * b.2.2

/-- Componentwise sum, modelling `numpy` array addition. -/
def vadd (a b : Vec3) : Vec3 := (a.1 + b.1, a.2.1 + b.2.1, a.2.2 + b.2.2)

/-- Componentwise difference. -/
def vsub (a b : Vec3) : Vec3 := (a.1 - b.1, a.2.1 - b.2.1, a.2.2 - b.2.2)

/-- Scalar multiple, modelling `scale * z * normal` on `numpy` arrays. -/
def smul3 (c : ℚ) (a : Vec3) : Vec3 := (c * a.1, c * a.2.1, c * a.2.2)

/-- Cross product of 3-vectors. -/
def cross3 (a b : Vec3) : Vec3 :=
  (a.2.1 * b.2.2 - a.2.2 * b.2.1,
   a.2.2 * b.1 - a.1 * b.2.2,
   a.1 * b.2.1 - a.2.1 * b.1)

/-- Squared Euclidean norm. -/
def normSq (a : Vec3) : ℚ := dot3 a a

/-- Squared distance between two points, modelling `(dvs * dvs).sum(axis=1)`
for a difference vector. -/
def distSq (a b : Vec3) : ℚ := normSq (vsub a b)

/-- Errors raised by the modelled Python code.  `validationError` is never
produced by the code under `src/`; it is the shape a descriptive
input-validation error would take. -/
inductive PyError where
  | zeroDivision
  | valueError
  | indexError
  | typeError
  | recursionError
  | unknownCriteria
  | validationError
  deriving DecidableEq, Repr

/-- Is the error a descriptive input-validation error? -/
def PyError.isValidation : PyError → Bool
  | .validationError => true
  | _ => false

/-- Python float division: `a / b`, raising `ZeroDivisionError` on `b = 0`. -/
def qdiv (a b : ℚ) : Except PyError ℚ :=
  if b = 0 then .error .zeroDivision else .ok (a / b)

/-- `max` of a list of rationals; Python's `max` raises on the empty list,
this total version is only ever applied through `pyMax`, or to nonempty
lists (junk value 0 on the empty list). -/
def listMax : List ℚ → ℚ
  | [] => 0
  | x :: xs => xs.foldl max x

/-- `min` of a list of rationals (see `listMax`). -/
def listMin : List ℚ → ℚ
  | [] => 0
  | x :: xs => xs.foldl min x

/-- Python `max`: raises `ValueError` on an empty sequence. -/
def pyMax (l : List ℚ) : Except PyError ℚ :=
  match l with
  | [] => .error .valueError
  | _ => .ok (listMax l)

/-- Python `min`: raises `ValueError` on an empty sequence. -/
def pyMin (l : List ℚ) : Except PyError ℚ :=
  match l with
  | [] => .error .valueError
  | _ => .ok (listMin l)

/-- A left-to-right effectful map over a list, modelling a Python list
comprehension that may raise: the first raised error aborts the whole
comprehension. -/
def mapE (f : α → Except PyError β) : List α → Except PyError (List β)
  | [] => .ok []
  | x :: xs =>
    match f x with
    | .error e => .error e
    | .ok y =>
      match mapE f xs with
      | .error e => .error e
      | .ok ys => .ok (y :: ys)

/-! ## The surface-bend kernel (`bend_along_surface.py`) -/

/-- The node's orientation axis (`orient_axis_` property, values X/Y/Z). -/
inductive Axis where
  | X
  | Y
  | Z
  deriving DecidableEq, Repr

/-- `get_axis_idx` / `orient_axis`: the index of the orientation axis. -/
def axisIdx : Axis → Nat
  | .X => 0
  | .Y => 1
  | .Z => 2

/-- `get_other_axes`: the two coordinate indices used as U and V (the two
axes other than the orientation axis). -/
def otherAxes : Axis → Nat × Nat
  | .X => (1, 2)
  | .Y => (0, 2)
  | .Z => (0, 1)

/-- The U coordinates of all source vertices:
`[vertex[u_index] for col in vertices for vertex in col]`. -/
def uCoords (orient : Axis) (vertices : List (List Vec3)) : List ℚ :=
  vertices.flatten.map (fun p => coord p (otherAxes orient).1)

/-- The V coordinates of all source vertices (see `uCoords`). -/
def vCoords (orient : Axis) (vertices : List (List Vec3)) : List ℚ :=
  vertices.flatten.map (fun p => coord p (otherAxes orient).2)

/-- One entry of the rescaling comprehension of `get_uv`:
`((vertex[u_index] - min_u)/size_u, (vertex[v_index] - min_v)/size_v)`. -/
def uvPoint (ui vi : Nat) (minU sizeU minV sizeV : ℚ) (p : Vec3) :
    Except PyError (ℚ × ℚ) := do
  let u ← qdiv (coord p ui - minU) sizeU
  let v ← qdiv (coord p vi - minV) sizeV
  pure (u, v)

/-- `get_uv`: translate source vertices to UV space.  Collects the U and V
coordinates of all vertices, rescales both components to `[0, 1]` by the
observed min/max, and returns `(size_u, size_v, uv_grid)`.  `min`/`max` of
an empty vertex list raises `ValueError`; a zero range raises
`ZeroDivisionError` at the first rescaling division. -/
def get_uv (orient : Axis) (vertices : List (List Vec3)) :
    Except PyError (ℚ × ℚ × List (List (ℚ × ℚ))) := do
  let us := uCoords orient vertices
  let vs := vCoords orient vertices
  let minU ← pyMin us
  let maxU ← pyMax us
  let minV ← pyMin vs
  let maxV ← pyMax vs
  let sizeU := maxU - minU
  let sizeV := maxV - minV
  let res ← mapE (fun col =>
    mapE (uvPoint (otherAxes orient).1 (otherAxes orient).2 minU sizeU minV sizeV) col)
    vertices
  pure (sizeU, sizeV, res)

/-- Modelled from the spec: `diameter` (from `sverchok.utils.geom`, not in
this snapshot) is the surface's physical extent along one coordinate axis
("its diameter along each axis"): the difference between the largest and
the smallest coordinate of the points along that axis.  `min`/`max` of an
empty list raises `ValueError`. -/
def diameter (points : List Vec3) (i : Nat) : Except PyError ℚ := do
  let cs := points.map (fun p => coord p i)
  let lo ← pyMin cs
  let hi ← pyMax cs
  pure (hi - lo)

/-- The displacement scale factor of `process`: with auto-scale enabled,
`scale_z = sqrt(scale_u * scale_v)` where `scale_u/scale_v` are the ratios
of the surface's diameter along U/V to the source grid's U/V extent; with
auto-scale disabled, `scale_z = 1.0`.  `sqrtQ` is the model of Python's
`math.sqrt` (not representable exactly on `ℚ`), passed as a parameter. -/
def bendScale (sqrtQ : ℚ → ℚ) (orient : Axis) (autoscale : Bool)
    (surface : List (List Vec3)) (srcSizeU srcSizeV : ℚ) : Except PyError ℚ :=
  if autoscale then do
    let du ← diameter surface.flatten (otherAxes orient).1
    let dv ← diameter surface.flatten (otherAxes orient).2
    let scaleU ← qdiv du srcSizeU
    let scaleV ← qdiv dv srcSizeV
    pure (sqrtQ (scaleU * scaleV))
  else pure 1

/-- The per-object body of `SvBendAlongSurfaceNode.process`: translate the
source grid to UV space, compute the displacement scale, and map every
source point to `spline_vertex + scale_z * z * spline_normal` where `z` is
the source point's coordinate along the orientation axis.  `splineEval` and
`splineNormal` model the `Spline2D` position/normal evaluators (Modelled
from the spec: `Spline2D` lives in `sverchok.utils.geom`, outside this
snapshot; the spec only states that it exposes position and unit-normal
evaluation at `(u, v)`). -/
def bend_kernel (sqrtQ : ℚ → ℚ) (splineEval splineNormal : ℚ → ℚ → Vec3)
    (orient : Axis) (autoscale : Bool)
    (surface vertices : List (List Vec3)) : Except PyError (List (List Vec3)) := do
  let (sizeU, sizeV, uvCoords) ← get_uv orient vertices
  let scaleZ ← bendScale sqrtQ orient autoscale surface sizeU sizeV
  pure ((uvCoords.zip vertices).map (fun rows =>
    (rows.1.zip rows.2).map (fun pc =>
      vadd (splineEval pc.1.1 pc.1.2)
        (smul3 (scaleZ * coord pc.2 (axisIdx orient)) (splineNormal pc.1.1 pc.1.2)))))

/-- Double indexing `g[i][j]` into a grid. -/
def nth2 (g : List (List α)) (i j : Nat) : Option α :=
  g[i]?.bind (fun row => row[j]?)

/-! ## The solid-element selection kernel (`solid_select.py`) -/

/-- `SvSelectSolidNode.map_percent`: the percentile threshold
`maxv - percent * (maxv - minv) * 0.01`, or `maxv` when all values
coincide (`maxv <= minv`). -/
def map_percent (values : List ℚ) (percent : ℚ) : ℚ :=
  if listMax values ≤ listMin values then listMax values
  else listMax values - percent * (listMax values - listMin values) * (1 / 100)

/-- The shared percentile-mask pattern `values > threshold` (one measured
value per element, strict comparison with the `map_percent` threshold).
This is literally the mask computation of `_by_side` (per vertex),
`_faces_by_normal` and `_edges_by_direction`. -/
def thresholdMask (values : List ℚ) (percent : ℚ) : List Bool :=
  values.map (fun v => decide (map_percent values percent < v))

/-- `SvSelectSolidNode._by_side`: project the points onto the direction and
keep those whose projection strictly exceeds the percentile threshold.
The source first divides `direction` by its Euclidean norm; that norm is
not representable on `ℚ`, and rescaling the direction by any positive
constant provably never changes the mask (`by_side_smul_invariant`), so the
embedding projects onto the unnormalized direction. -/
def by_side (points : List Vec3) (direction : Vec3) (percent : ℚ) : List Bool :=
  thresholdMask (points.map (fun p => dot3 p direction)) percent

/-- A solid edge: the indices of its boundary vertices in the solid's
vertex list, and its tessellated sample points. -/
structure SEdge where
  vertIdxs : List Nat
  samples : List Vec3

/-- A solid face: the indices of its boundary vertices and edges, and its
tessellated sample points. -/
structure SFace where
  vertIdxs : List Nat
  edgeIdxs : List Nat
  samples : List Vec3

/-- Modelled from the spec: `SvSolidTopology` (from `sverchok.utils.solid`,
not in this snapshot) — a solid's topology as vertex/edge/face lists with
per-element point sampling; `tessellate(precision)` has already produced
the `samples` lists. -/
structure SolidTopo where
  verts : List Vec3
  edges : List SEdge
  faces : List SFace

/-- Index form of the Python filter `[v for c, v in zip(mask, elems) if c]`:
the indices at which the mask holds. -/
def selIdxs (mask : List Bool) : List Nat :=
  (List.range mask.length).filter (fun i => mask.getD i false)

/-- Modelled from the spec: "selecting elements of kind K selects all
elements of the other two kinds that are incident to at least one selected
K-element".  Downward direction: an element (with its incidence index
list) is selected iff it contains a selected index. -/
def maskByIncidence (elemIdxs : List (List Nat)) (sel : List Nat) : List Bool :=
  elemIdxs.map (fun idxs => idxs.any (fun i => sel.contains i))

/-- Modelled from the spec (see `maskByIncidence`).  Upward direction:
element `i` (of `n` elements) is selected iff some selected element `j`
contains `i` in its incidence list. -/
def maskByContainment (n : Nat) (idxsOf : Nat → List Nat) (sel : List Nat) : List Bool :=
  (List.range n).map (fun i => sel.any (fun j => (idxsOf j).contains i))

/-- `topo.get_edges_by_vertices_mask`: edges incident to a selected vertex. -/
def edgesByVertsMask (t : SolidTopo) (sel : List Nat) : List Bool :=
  maskByIncidence (t.edges.map SEdge.vertIdxs) sel

/-- `topo.get_faces_by_vertices_mask`: faces incident to a selected vertex. -/
def facesByVertsMask (t : SolidTopo) (sel : List Nat) : List Bool :=
  maskByIncidence (t.faces.map SFace.vertIdxs) sel

/-- `topo.get_vertices_by_edges_mask`: vertices of a selected edge. -/
def vertsByEdgesMask (t : SolidTopo) (sel : List Nat) : List Bool :=
  maskByContainment t.verts.length (fun j => (t.edges[j]?.map SEdge.vertIdxs).getD []) sel

/-- `topo.get_faces_by_edges_mask`: faces containing a selected edge. -/
def facesByEdgesMask (t : SolidTopo) (sel : List Nat) : List Bool :=
  maskByIncidence (t.faces.map SFace.edgeIdxs) sel

/-- `topo.get_vertices_by_faces_mask`: vertices of a selected face. -/
def vertsByFacesMask (t : SolidTopo) (sel : List Nat) : List Bool :=
  maskByContainment t.verts.length (fun j => (t.faces[j]?.map SFace.vertIdxs).getD []) sel

/-- `topo.get_edges_by_faces_mask`: edges of a selected face. -/
def edgesByFacesMask (t : SolidTopo) (sel : List Nat) : List Bool :=
  maskByContainment t.edges.length (fun j => (t.faces[j]?.map SFace.edgeIdxs).getD []) sel

/-- Modelled from the spec: `PlaneEquation.from_normal_and_point` plus
`distance_to_point(s) < radius`.  The point-to-plane distance is
`|(p - c) . n| / ‖n‖`; to stay in `ℚ` the strict comparison `dist < r`
(with `dist >= 0`) is encoded by the equivalent `0 < r` and
`((p - c) . n)^2 < r^2 * ‖n‖^2`. -/
def planeDistLt (normal center p : Vec3) (r : ℚ) : Bool :=
  decide (0 < r ∧ dot3 (vsub p center) normal ^ 2 < r ^ 2 * normSq normal)

/-- Modelled from the spec: `LineEquation.from_direction_and_point` plus
`distance_to_point(s) < radius`.  The point-to-line distance is
`‖(p - c) × d‖ / ‖d‖`, encoded without square roots as for `planeDistLt`. -/
def lineDistLt (direction center p : Vec3) (r : ℚ) : Bool :=
  decide (0 < r ∧ normSq (cross3 (vsub p center) direction) < r ^ 2 * normSq direction)

/-- The sphere-membership test of `_edges_by_sphere`/`_faces_by_sphere`:
squared distances compared with `radius*radius` (no square root in the
source either). -/
def sphereDistLt (center p : Vec3) (r : ℚ) : Bool :=
  decide (distSq p center < r * r)

/-- `_verts_by_side`. -/
def vertsBySide (t : SolidTopo) (direction : Vec3) (percent : ℚ) : List Bool :=
  by_side t.verts direction percent

/-- Modelled from the spec: `topo.get_vertices_within_range_mask` — a
vertex is selected iff its distance to the center is below the radius
(`dist < r` encoded as `0 < r` and `dist^2 < r^2`). -/
def vertsBySphere (t : SolidTopo) (center : Vec3) (r : ℚ) : List Bool :=
  t.verts.map (fun v => decide (0 < r ∧ distSq v center < r * r))

/-- `_verts_by_plane` (via `get_vertices_by_location_mask`). -/
def vertsByPlane (t : SolidTopo) (center direction : Vec3) (r : ℚ) : List Bool :=
  t.verts.map (fun v => planeDistLt direction center v r)

/-- `_verts_by_cylinder` (via `get_vertices_by_location_mask`). -/
def vertsByCylinder (t : SolidTopo) (center direction : Vec3) (r : ℚ) : List Bool :=
  t.verts.map (fun v => lineDistLt direction center v r)

/-- Modelled from the spec: `topo.get_edges_by_location_mask(condition,
include_partial)` — an edge passes if any (partial mode) / all (strict
mode) of its sample points satisfy the per-point condition. -/
def edgesByLocation (t : SolidTopo) (cond : Vec3 → Bool) (incPart : Bool) : List Bool :=
  t.edges.map (fun e => if incPart then e.samples.any cond else e.samples.all cond)

/-- Modelled from the spec: `topo.get_faces_by_location_mask` (see
`edgesByLocation`). -/
def facesByLocation (t : SolidTopo) (cond : Vec3 → Bool) (incPart : Bool) : List Bool :=
  t.faces.map (fun f => if incPart then f.samples.any cond else f.samples.all cond)

/-- The per-element test of `_edges_by_side`/`_faces_by_side`:
`any`/`all` (per `include_partial`) of `value > threshold` over the
element's sampled values. -/
def sideTest (thr : ℚ) (direction : Vec3) (incPart : Bool) (samples : List Vec3) : Bool :=
  if incPart then (samples.map (fun p => decide (thr < dot3 p direction))).any id
  else (samples.map (fun p => decide (thr < dot3 p direction))).all id

/-- The pooled sampled values of `_edges_by_side` (`all_values`): the
projections of every edge's sample points onto the direction. -/
def edgeSideValues (t : SolidTopo) (direction : Vec3) : List ℚ :=
  (t.edges.map (fun e => e.samples.map (fun p => dot3 p direction))).flatten

/-- The pooled sampled values of `_faces_by_side` (`all_values`). -/
def faceSideValues (t : SolidTopo) (direction : Vec3) : List ℚ :=
  (t.faces.map (fun f => f.samples.map (fun p => dot3 p direction))).flatten

/-- `_edges_by_side`: one threshold over all sampled values of all edges,
then `any`/`all` (per `include_partial`) of `value > threshold` per edge. -/
def edgesBySide (t : SolidTopo) (direction : Vec3) (percent : ℚ) (incPart : Bool) :
    List Bool :=
  t.edges.map (fun e =>
    sideTest (map_percent (edgeSideValues t direction) percent) direction incPart e.samples)

/-- `_faces_by_side` (same pattern as `edgesBySide`). -/
def facesBySide (t : SolidTopo) (direction : Vec3) (percent : ℚ) (incPart : Bool) :
    List Bool :=
  t.faces.map (fun f =>
    sideTest (map_percent (faceSideValues t direction) percent) direction incPart f.samples)

/-- `_edges_by_sphere`. -/
def edgesBySphere (t : SolidTopo) (center : Vec3) (r : ℚ) (incPart : Bool) : List Bool :=
  edgesByLocation t (fun p => sphereDistLt center p r) incPart

/-- `_edges_by_plane`. -/
def edgesByPlane (t : SolidTopo) (center direction : Vec3) (r : ℚ) (incPart : Bool) :
    List Bool :=
  edgesByLocation t (fun p => planeDistLt direction center p r) incPart

/-- `_edges_by_cylinder`. -/
def edgesByCylinder (t : SolidTopo) (center direction : Vec3) (r : ℚ) (incPart : Bool) :
    List Bool :=
  edgesByLocation t (fun p => lineDistLt direction center p r) incPart

/-- `_edges_by_direction`: per-edge score `|direction . line_direction|`
with the best-fit line direction `fitLineDir` (Modelled from the spec:
`linear_approximation(...).most_similar_line()` is external), thresholded
by the percentile rule. -/
def edgesByDirection (fitLineDir : List Vec3 → Vec3) (t : SolidTopo)
    (direction : Vec3) (percent : ℚ) : List Bool :=
  thresholdMask (t.edges.map (fun e => |dot3 direction (fitLineDir e.samples)|)) percent

/-- `_faces_by_normal`: per-face score `direction . plane_normal` with the
best-fit plane normal `fitPlaneNormal` (Modelled from the spec:
`linear_approximation(...).most_similar_plane()` is external), thresholded
by the percentile rule. -/
def facesByNormal (fitPlaneNormal : List Vec3 → Vec3) (t : SolidTopo)
    (direction : Vec3) (percent : ℚ) : List Bool :=
  thresholdMask (t.faces.map (fun f => dot3 direction (fitPlaneNormal f.samples))) percent

/-- `_faces_by_sphere`. -/
def facesBySphere (t : SolidTopo) (center : Vec3) (r : ℚ) (incPart : Bool) : List Bool :=
  facesByLocation t (fun p => sphereDistLt center p r) incPart

/-- `_faces_by_plane`. -/
def facesByPlane (t : SolidTopo) (center direction : Vec3) (r : ℚ) (incPart : Bool) :
    List Bool :=
  facesByLocation t (fun p => planeDistLt direction center p r) incPart

/-- `_faces_by_cylinder`. -/
def facesByCylinder (t : SolidTopo) (center direction : Vec3) (r : ℚ) (incPart : Bool) :
    List Bool :=
  facesByLocation t (fun p => lineDistLt direction center p r) incPart

/-- The node's `element_type` property. -/
inductive ElemType where
  | VERTS
  | EDGES
  | FACES
  deriving DecidableEq, Repr

/-- The node's `criteria_type` property. -/
inductive Criteria where
  | SIDE
  | NORMAL
  | SPHERE
  | PLANE
  | CYLINDER
  | DIRECTION
  deriving DecidableEq, Repr

/-- `SvSelectSolidNode.calc_mask`: compute the primary mask for the
selected element kind per the criteria type, then derive the other two
masks by topological adjacency; an unknown criteria for the active kind
raises an exception.  (`precision` only parameterizes the tessellation,
which the modelled `SolidTopo` has already applied to its `samples`.) -/
def calcMask (fitLineDir fitPlaneNormal : List Vec3 → Vec3)
    (et : ElemType) (ct : Criteria) (incPart : Bool) (t : SolidTopo)
    (direction center : Vec3) (percent radius : ℚ) :
    Except PyError (List Bool × List Bool × List Bool) :=
  match et with
  | .VERTS => do
    let vertexMask ←
      match ct with
      | .SIDE => Except.ok (vertsBySide t direction percent)
      | .SPHERE => Except.ok (vertsBySphere t center radius)
      | .PLANE => Except.ok (vertsByPlane t center direction radius)
      | .CYLINDER => Except.ok (vertsByCylinder t center direction radius)
      | _ => Except.error .unknownCriteria
    let sel := selIdxs vertexMask
    pure (vertexMask, edgesByVertsMask t sel, facesByVertsMask t sel)
  | .EDGES => do
    let edgeMask ←
      match ct with
      | .SIDE => Except.ok (edgesBySide t direction percent incPart)
      | .SPHERE => Except.ok (edgesBySphere t center radius incPart)
      | .PLANE => Except.ok (edgesByPlane t center direction radius incPart)
      | .CYLINDER => Except.ok (edgesByCylinder t center direction radius incPart)
      | .DIRECTION => Except.ok (edgesByDirection fitLineDir t direction percent)
      | _ => Except.error .unknownCriteria
    let sel := selIdxs edgeMask
    pure (vertsByEdgesMask t sel, edgeMask, facesByEdgesMask t sel)
  | .FACES => do
    let faceMask ←
      match ct with
      | .SIDE => Except.ok (facesBySide t direction percent incPart)
      | .NORMAL => Except.ok (facesByNormal fitPlaneNormal t direction percent)
      | .SPHERE => Except.ok (facesBySphere t center radius incPart)
      | .PLANE => Except.ok (facesByPlane t center direction radius incPart)
      | .CYLINDER => Except.ok (facesByCylinder t center direction radius incPart)
      | _ => Except.error .unknownCriteria
    let sel := selIdxs faceMask
    pure (vertsByFacesMask t sel, edgesByFacesMask t sel, faceMask)

/-! ## The vector-math node (`math_mk2.py`) -/

/-- A leaf Python value handled by the vector-math functions: a 3-tuple
(vector) or a number (scalar). -/
inductive PyAtom where
  | vec : Vec3 → PyAtom
  | num : ℚ → PyAtom
  deriving DecidableEq, Repr

/-- A dynamically nested Python list over leaf values. -/
inductive Nested (α : Type) where
  | atom : α → Nested α
  | node : List (Nested α) → Nested α
  deriving Repr

/-- `itertools.zip_longest(l1, l2, fillvalue=fl)`. -/
def zipLongest (l1 l2 : List α) (fl : α) : List (α × α) :=
  match l1, l2 with
  | [], [] => []
  | x :: xs, [] => (x, fl) :: zipLongest xs [] fl
  | [], y :: ys => (fl, y) :: zipLongest [] ys fl
  | x :: xs, y :: ys => (x, y) :: zipLongest xs ys fl

/-- Iterating a value as a list: Python raises `TypeError` when the else
branch of `recurse_fxy` tries to descend into a non-iterable leaf. -/
def asPyList : Nested PyAtom → Except PyError (List (Nested PyAtom))
  | .node xs => .ok xs
  | .atom _ => .error .typeError

/-- The fill value `fl = l2[-1] if len(l1) > len(l2) else l1[-1]` of
`recurse_fxy`; `[-1]` on an empty list raises `IndexError`. -/
def lastFill (l1 l2 : List (Nested PyAtom)) : Except PyError (Nested PyAtom) :=
  match (if l2.length < l1.length then l2.getLast? else l1.getLast?) with
  | some x => .ok x
  | none => .error .indexError

/-- `SvVectorMathNodeMK2.recurse_fxy`: match the two nested lists by
length (`zip_longest` filled with `lastFill`), apply `f` pairwise at level
1, recurse one level down otherwise.  Python recurses below level 1
without a base case until iteration of a leaf fails; the modelled
recursion bottoms out at level 0 with an error. -/
def recurseFxy (f : Nested PyAtom → Nested PyAtom → Except PyError (Nested PyAtom)) :
    Nat → List (Nested PyAtom) → List (Nested PyAtom) →
    Except PyError (List (Nested PyAtom))
  | 0, l1, l2 => do
    let _ ← lastFill l1 l2
    Except.error PyError.recursionError
  | 1, l1, l2 => do
    let fl ← lastFill l1 l2
    mapE (fun p => f p.1 p.2) (zipLongest l1 l2 fl)
  | n + 2, l1, l2 => do
    let fl ← lastFill l1 l2
    mapE (fun p => do
      let xs ← asPyList p.1
      let ys ← asPyList p.2
      let r ← recurseFxy f (n + 1) xs ys
      pure (Nested.node r)) (zipLongest l1 l2 fl)

/-- The body of `SvVectorMathNodeMK2.process` for a two-input function:
`result = [[]]` up front, `recurse_fxy` inside `try:`, and a bare
`except: pass`, so any raised error is discarded and the preset empty
result `[[]]` is emitted. -/
def vmProcess (f : Nested PyAtom → Nested PyAtom → Except PyError (Nested PyAtom))
    (l1 l2 : List (Nested PyAtom)) (leve : Nat) : List (Nested PyAtom) :=
  match recurseFxy f (leve - 1) l1 l2 with
  | .ok r => r
  | .error _ => [Nested.node []]

/-- `func_dict["1/SCALAR"]`: `lambda u, s: (u[0]/s, u[1]/s, u[2]/s)` —
componentwise division of a vector by a scalar; raises
`ZeroDivisionError` on `s = 0` and `TypeError` on arguments of the wrong
shape. -/
def oneOverScalar : Nested PyAtom → Nested PyAtom → Except PyError (Nested PyAtom)
  | .atom (.vec u), .atom (.num s) =>
    if s = 0 then .error .zeroDivision
    else .ok (.atom (.vec (u.1 / s, u.2.1 / s, u.2.2 / s)))
  | _, _ => .error .typeError

/-! ## Pointwise mask ordering and concrete fixtures -/

/-- Mask `a` selects a subset of what mask `b` selects (pointwise Bool
implication at every index). -/
def maskLE (a b : List Bool) : Prop :=
  ∀ i : Nat, a[i]? = some true → b[i]? = some true

/-- Modelled from the spec: the `Spline2D` position evaluator for the flat
surface grid of the spec's concrete scenario — a planar surface at `z = 0`
spanning `[0,1] × [0,1]` evaluates to `(u, v, 0)`. -/
def flatEval : ℚ → ℚ → Vec3 := fun u v => (u, v, 0)

/-- Modelled from the spec: the `Spline2D` unit-normal evaluator for the
flat surface grid of the spec's concrete scenario — the planar normal is
`+Z`. -/
def flatNormal : ℚ → ℚ → Vec3 := fun _ _ => (0, 0, 1)

/-- The flat 3×3 surface grid at `z = 0` spanning `[0,1] × [0,1]` of the
spec's concrete scenario. -/
def surf33 : List (List Vec3) :=
  [[(0, 0, 0), (1/2, 0, 0), (1, 0, 0)],
   [(0, 1/2, 0), (1/2, 1/2, 0), (1, 1/2, 0)],
   [(0, 1, 0), (1/2, 1, 0), (1, 1, 0)]]

/-- The single-point source grid `(0.5, 0.5, 2.0)` of the spec's concrete
scenario. -/
def srcPoint : List (List Vec3) := [[(1/2, 1/2, 2)]]

/-- A 2×2 source grid spanning `[0,1] × [0,1]` in X/Y with one raised
corner, used as a nondegenerate concrete input. -/
def grid22 : List (List Vec3) :=
  [[(0, 0, 0), (1, 0, 0)], [(0, 1, 0), (1, 1, 5)]]

/-- A two-vertex solid with one edge, used as a concrete selection input. -/
def topo1 : SolidTopo :=
  { verts := [(0, 0, 0), (3, 0, 0)]
  , edges := [⟨[0, 1], [(0, 0, 0), (3, 0, 0)]⟩]
  , faces := [] }

/-- A two-face solid (each face one sample point), used as a concrete
selection input. -/
def topo2 : SolidTopo :=
  { verts := [(0, 0, 0), (0, 0, 1)]
  , edges := [⟨[0], [(0, 0, 0)]⟩, ⟨[1], [(0, 0, 1)]⟩]
  , faces := [⟨[0], [0], [(0, 0, 0)]⟩, ⟨[1], [1], [(0, 0, 1)]⟩] }

/-! ## Basic lemmas on the list helpers -/

theorem bind_ok_eq {x : α} {f : α → Except PyError β} :
    (Except.ok x : Except PyError α) >>= f = f x := rfl

theorem bind_error_eq {e : PyError} {f : α → Except PyError β} :
    (Except.error e : Except PyError α) >>= f = .error e := rfl

theorem pure_ok_eq {x : α} : (pure x : Except PyError α) = .ok x := rfl

theorem foldl_max_le_iff {l : List ℚ} {a c : ℚ} :
    l.foldl max a ≤ c ↔ a ≤ c ∧ ∀ x ∈ l, x ≤ c := by
  induction l generalizing a with
  | nil => simp
  | cons y ys ih =>
    simp only [List.foldl_cons, ih, max_le_iff, List.mem_cons]
    constructor
    · rintro ⟨⟨h1, h2⟩, h3⟩
      exact ⟨h1, fun x hx => hx.elim (fun he => he ▸ h2) (h3 x)⟩
    · rintro ⟨h1, h2⟩
      exact ⟨⟨h1, h2 y (Or.inl rfl)⟩, fun x hx => h2 x (Or.inr hx)⟩

theorem le_foldl_min_iff {l : List ℚ} {a c : ℚ} :
    c ≤ l.foldl min a ↔ c ≤ a ∧ ∀ x ∈ l, c ≤ x := by
  induction l generalizing a with
  | nil => simp
  | cons y ys ih =>
    simp only [List.foldl_cons, ih, le_min_iff, List.mem_cons]
    constructor
    · rintro ⟨⟨h1, h2⟩, h3⟩
      exact ⟨h1, fun x hx => hx.elim (fun he => he ▸ h2) (h3 x)⟩
    · rintro ⟨h1, h2⟩
      exact ⟨⟨h1, h2 y (Or.inl rfl)⟩, fun x hx => h2 x (Or.inr hx)⟩

theorem le_listMax_of_mem {l : List ℚ} {x : ℚ} (hx : x ∈ l) : x ≤ listMax l := by
  cases l with
  | nil => cases hx
  | cons y ys =>
    have hle : listMax (y :: ys) ≤ listMax (y :: ys) := le_refl _
    rw [show listMax (y :: ys) = ys.foldl max y from rfl] at hle
    have := foldl_max_le_iff.mp hle
    rcases List.mem_cons.mp hx with he | hm
    · exact he ▸ this.1
    · exact this.2 x hm

theorem listMin_le_of_mem {l : List ℚ} {x : ℚ} (hx : x ∈ l) : listMin l ≤ x := by
  cases l with
  | nil => cases hx
  | cons y ys =>
    have hle : listMin (y :: ys) ≤ listMin (y :: ys) := le_refl _
    rw [show listMin (y :: ys) = ys.foldl min y from rfl] at hle
    have := le_foldl_min_iff.mp hle
    rcases List.mem_cons.mp hx with he | hm
    · exact he ▸ this.1
    · exact this.2 x hm

theorem listMax_mem {l : List ℚ} (h : l ≠ []) : listMax l ∈ l := by
  cases l with
  | nil => exact absurd rfl h
  | cons y ys =>
    clear h
    show ys.foldl max y ∈ y :: ys
    induction ys generalizing y with
    | nil => simp [List.foldl]
    | cons z zs ih =>
      simp only [List.foldl_cons]
      rcases List.mem_cons.mp (ih (max y z)) with hm | hm
      · rw [hm]
        rcases max_choice y z with hc | hc <;> rw [hc]
        · exact List.mem_cons_self _ _
        · exact List.mem_cons_of_mem _ (List.mem_cons_self _ _)
      · exact List.mem_cons_of_mem _ (List.mem_cons_of_mem _ hm)

theorem listMin_mem {l : List ℚ} (h : l ≠ []) : listMin l ∈ l := by
  cases l with
  | nil => exact absurd rfl h
  | cons y ys =>
    clear h
    show ys.foldl min y ∈ y :: ys
    induction ys generalizing y with
    | nil => simp [List.foldl]
    | cons z zs ih =>
      simp only [List.foldl_cons]
      rcases List.mem_cons.mp (ih (min y z)) with hm | hm
      · rw [hm]
        rcases min_choice y z with hc | hc <;> rw [hc]
        · exact List.mem_cons_self _ _
        · exact List.mem_cons_of_mem _ (List.mem_cons_self _ _)
      · exact List.mem_cons_of_mem _ (List.mem_cons_of_mem _ hm)

theorem listMin_le_listMax {l : List ℚ} (h : l ≠ []) : listMin l ≤ listMax l :=
  le_listMax_of_mem (listMin_mem h)

theorem mapE_ok_length {f : α → Except PyError β} {l : List α} {r : List β}
    (h : mapE f l = .ok r) : r.length = l.length := by
  induction l generalizing r with
  | nil => simp only [mapE] at h; cases h; rfl
  | cons x xs ih =>
    simp only [mapE] at h
    cases hx : f x with
    | error e => rw [hx] at h; simp at h
    | ok y =>
      rw [hx] at h
      cases hxs : mapE f xs with
      | error e => rw [hxs] at h; simp at h
      | ok ys =>
        rw [hxs] at h
        simp only [Except.ok.injEq] at h
        subst h
        simp [ih hxs]

theorem mapE_ok_forall₂ {f : α → Except PyError β} {l : List α} {r : List β}
    (h : mapE f l = .ok r) : List.Forall₂ (fun a b => f a = .ok b) l r := by
  induction l generalizing r with
  | nil => simp only [mapE] at h; cases h; exact List.Forall₂.nil
  | cons x xs ih =>
    simp only [mapE] at h
    cases hx : f x with
    | error e => rw [hx] at h; simp at h
    | ok y =>
      rw [hx] at h
      cases hxs : mapE f xs with
      | error e => rw [hxs] at h; simp at h
      | ok ys =>
        rw [hxs] at h
        simp only [Except.ok.injEq] at h
        subst h
        exact List.Forall₂.cons hx (ih hxs)

theorem mapE_ok_get? {f : α → Except PyError β} {l : List α} {r : List β}
    (h : mapE f l = .ok r) {i : Nat} {x : α} (hx : l.get? i = some x) :
    ∃ y, f x = .ok y ∧ r.get? i = some y := by
  induction l generalizing r i with
  | nil => simp at hx
  | cons a as ih =>
    simp only [mapE] at h
    cases ha : f a with
    | error e => rw [ha] at h; simp at h
    | ok y =>
      rw [ha] at h
      cases has : mapE f as with
      | error e => rw [has] at h; simp at h
      | ok ys =>
        rw [has] at h
        simp only [Except.ok.injEq] at h
        subst h
        cases i with
        | zero => simp only [List.get?] at hx ⊢; cases hx; exact ⟨y, ha, rfl⟩
        | succ n =>
          simp only [List.get?] at hx ⊢
          exact ih has hx

/-- If some element of the list makes `f` fail, and every failing element
fails with error `e`, then the whole comprehension raises `e` (Python
raises at the first failing element). -/
theorem mapE_error_of_exists {f : α → Except PyError β} {l : List α} {e : PyError}
    (hex : ∃ x ∈ l, ∀ r, f x ≠ .ok r)
    (hall : ∀ x ∈ l, (∀ r, f x ≠ .ok r) → f x = .error e) :
    mapE f l = .error e := by
  induction l with
  | nil => rcases hex with ⟨x, hx, _⟩; cases hx
  | cons a as ih =>
    cases ha : f a with
    | error e' =>
      have hae : f a = .error e := by
        apply hall a (List.mem_cons_self a as)
        intro r hr; rw [ha] at hr; cases hr
      simp only [mapE, hae]
    | ok y =>
      have hex' : ∃ x ∈ as, ∀ r, f x ≠ .ok r := by
        rcases hex with ⟨x, hx, hnx⟩
        rcases List.mem_cons.mp hx with he | hm
        · exact absurd ha (he ▸ hnx y)
        · exact ⟨x, hm, hnx⟩
      have htail := ih hex' (fun x hx => hall x (List.mem_cons_of_mem a hx))
      simp only [mapE, ha, htail]

/-! ## Inversion lemmas for the bend kernel -/

theorem uCoords_ne_nil_iff {orient : Axis} {vertices : List (List Vec3)} :
    uCoords orient vertices ≠ [] ↔ vertices.flatten ≠ [] := by
  unfold uCoords
  simp

theorem vCoords_ne_nil_iff {orient : Axis} {vertices : List (List Vec3)} :
    vCoords orient vertices ≠ [] ↔ vertices.flatten ≠ [] := by
  unfold vCoords
  simp

theorem get_uv_ok_inv {orient : Axis} {vertices : List (List Vec3)} {su sv : ℚ}
    {uv : List (List (ℚ × ℚ))}
    (h : get_uv orient vertices = .ok (su, sv, uv)) :
    uCoords orient vertices ≠ [] ∧
    su = listMax (uCoords orient vertices) - listMin (uCoords orient vertices) ∧
    sv = listMax (vCoords orient vertices) - listMin (vCoords orient vertices) ∧
    mapE (fun col => mapE (uvPoint (otherAxes orient).1 (otherAxes orient).2
        (listMin (uCoords orient vertices)) su
        (listMin (vCoords orient vertices)) sv) col) vertices = .ok uv := by
  unfold get_uv at h
  cases hus : uCoords orient vertices with
  | nil => rw [hus] at h; simp [pyMin, bind_error_eq] at h
  | cons a as =>
    rw [hus] at h
    cases hvs : vCoords orient vertices with
    | nil =>
      have h1 : vertices.flatten ≠ [] :=
        uCoords_ne_nil_iff.mp (by rw [hus]; exact List.cons_ne_nil a as)
      exact absurd hvs (vCoords_ne_nil_iff.mpr h1)
    | cons b bs =>
      rw [hvs] at h
      simp only [pyMin, pyMax, bind_ok_eq] at h
      cases hm : mapE (fun col => mapE (uvPoint (otherAxes orient).1 (otherAxes orient).2
          (listMin (a :: as)) (listMax (a :: as) - listMin (a :: as))
          (listMin (b :: bs)) (listMax (b :: bs) - listMin (b :: bs))) col) vertices with
      | error e => rw [hm] at h; simp [bind_error_eq] at h
      | ok res =>
        rw [hm] at h
        simp only [bind_ok_eq, pure_ok_eq, Except.ok.injEq, Prod.mk.injEq] at h
        obtain ⟨h1, h2, h3⟩ := h
        refine ⟨List.cons_ne_nil a as, h1.symm, h2.symm, ?_⟩
        rw [← h1, ← h2, ← h3]
        exact hm

/-! ## Zero-range failure of the bend kernel -/

theorem uvPoint_error_of_size_zero (ui vi : Nat) (minU sizeU minV sizeV : ℚ) (p : Vec3)
    (h : sizeU = 0 ∨ sizeV = 0) :
    uvPoint ui vi minU sizeU minV sizeV p = .error .zeroDivision := by
  rcases h with h | h
  · subst h
    simp [uvPoint, qdiv, bind_error_eq]
  · subst h
    by_cases hsu : sizeU = 0
    · subst hsu
      simp [uvPoint, qdiv, bind_error_eq]
    · simp [uvPoint, qdiv, hsu, bind_ok_eq, bind_error_eq]

theorem exists_ne_nil_of_flatten_ne_nil {l : List (List α)} (h : l.flatten ≠ []) :
    ∃ col ∈ l, col ≠ [] := by
  by_contra hc
  push_neg at hc
  exact h (List.flatten_eq_nil_iff.mpr hc)

/-- With a zero U or V range, the rescaling comprehension of `get_uv`
raises `ZeroDivisionError` (provided the grid holds at least one vertex). -/
theorem get_uv_zero_range_error {orient : Axis} {vertices : List (List Vec3)}
    (hv : vertices.flatten ≠ [])
    (hz : listMax (uCoords orient vertices) - listMin (uCoords orient vertices) = 0 ∨
          listMax (vCoords orient vertices) - listMin (vCoords orient vertices) = 0) :
    get_uv orient vertices = .error .zeroDivision := by
  unfold get_uv
  cases hus : uCoords orient vertices with
  | nil => exact absurd hus (uCoords_ne_nil_iff.mpr hv)
  | cons a as =>
    cases hvs : vCoords orient vertices with
    | nil => exact absurd hvs (vCoords_ne_nil_iff.mpr hv)
    | cons b bs =>
      rw [hus] at hz
      rw [hvs] at hz
      simp only [pyMin, pyMax, bind_ok_eq]
      have hcol : ∀ col : List Vec3, col ≠ [] →
          mapE (uvPoint (otherAxes orient).1 (otherAxes orient).2
            (listMin (a :: as)) (listMax (a :: as) - listMin (a :: as))
            (listMin (b :: bs)) (listMax (b :: bs) - listMin (b :: bs))) col
            = .error .zeroDivision := by
        intro col hcne
        apply mapE_error_of_exists
        · obtain ⟨p, hp⟩ := List.exists_mem_of_ne_nil col hcne
          refine ⟨p, hp, fun r hr => ?_⟩
          rw [uvPoint_error_of_size_zero _ _ _ _ _ _ _ hz] at hr
          cases hr
        · intro p _ _
          exact uvPoint_error_of_size_zero _ _ _ _ _ _ p hz
      have houter : mapE (fun col => mapE (uvPoint (otherAxes orient).1 (otherAxes orient).2
            (listMin (a :: as)) (listMax (a :: as) - listMin (a :: as))
            (listMin (b :: bs)) (listMax (b :: bs) - listMin (b :: bs))) col) vertices
            = .error .zeroDivision := by
        apply mapE_error_of_exists
        · obtain ⟨col, hcol_mem, hcne⟩ := exists_ne_nil_of_flatten_ne_nil hv
          refine ⟨col, hcol_mem, fun r hr => ?_⟩
          rw [hcol col hcne] at hr
          cases hr
        · intro col _ hnok
          cases hce : col with
          | nil =>
            exfalso
            apply hnok []
            rw [hce]
            rfl
          | cons q qs =>
            rw [← hce]
            exact hcol col (by rw [hce]; exact List.cons_ne_nil q qs)
      rw [houter]
      exact bind_error_eq

/-- `process` fails as soon as `get_uv` fails. -/
theorem bend_kernel_error_of_get_uv {sqrtQ : ℚ → ℚ}
    {splineEval splineNormal : ℚ → ℚ → Vec3} {orient : Axis} {autoscale : Bool}
    {surface vertices : List (List Vec3)} {e : PyError}
    (h : get_uv orient vertices = .error e) :
    bend_kernel sqrtQ splineEval splineNormal orient autoscale surface vertices
      = .error e := by
  unfold bend_kernel
  rw [h]
  rfl

/-! ## Direction rescaling invariance of the side test -/

theorem listMax_map_mul {l : List ℚ} {c : ℚ} (hc : 0 ≤ c) :
    listMax (l.map (fun x => c * x)) = c * listMax l := by
  cases l with
  | nil => simp [listMax]
  | cons x xs =>
    show (xs.map (fun y => c * y)).foldl max (c * x) = c * xs.foldl max x
    induction xs generalizing x with
    | nil => rfl
    | cons y ys ih =>
      simp only [List.map_cons, List.foldl_cons]
      rw [← mul_max_of_nonneg x y hc]
      exact ih (max x y)

theorem listMin_map_mul {l : List ℚ} {c : ℚ} (hc : 0 ≤ c) :
    listMin (l.map (fun x => c * x)) = c * listMin l := by
  cases l with
  | nil => simp [listMin]
  | cons x xs =>
    show (xs.map (fun y => c * y)).foldl min (c * x) = c * xs.foldl min x
    induction xs generalizing x with
    | nil => rfl
    | cons y ys ih =>
      simp only [List.map_cons, List.foldl_cons]
      rw [← mul_min_of_nonneg x y hc]
      exact ih (min x y)

theorem map_percent_smul {values : List ℚ} {c : ℚ} (percent : ℚ) (hc : 0 < c) :
    map_percent (values.map (fun x => c * x)) percent = c * map_percent values percent := by
  unfold map_percent
  rw [listMax_map_mul hc.le, listMin_map_mul hc.le]
  by_cases hmm : listMax values ≤ listMin values
  · rw [if_pos hmm, if_pos ((mul_le_mul_left hc).mpr hmm)]
  · rw [if_neg hmm, if_neg (fun hx => hmm ((mul_le_mul_left hc).mp hx))]
    ring

/-- Rescaling the direction by any positive constant never changes the
`_by_side` mask; this is why the embedding may project onto the raw
direction where the source divides it by its Euclidean norm first. -/
theorem by_side_smul_invariant (points : List Vec3) (d : Vec3) {c : ℚ}
    (percent : ℚ) (hc : 0 < c) :
    by_side points (smul3 c d) percent = by_side points d percent := by
  unfold by_side thresholdMask
  have hval : points.map (fun p => dot3 p (smul3 c d))
      = (points.map (fun p => dot3 p d)).map (fun x => c * x) := by
    rw [List.map_map]
    apply List.map_congr_left
    intro p _
    unfold dot3 smul3
    simp only [Function.comp]
    ring
  rw [hval, map_percent_smul percent hc, List.map_map]
  apply List.map_congr_left
  intro p _
  simp only [Function.comp]
  exact decide_eq_decide.mpr (mul_lt_mul_left hc)

/-! ## Threshold lemmas and the percentile claims (C3, C4, C10) -/

theorem map_percent_zero (values : List ℚ) :
    map_percent values 0 = listMax values := by
  unfold map_percent
  split <;> ring

theorem map_percent_hundred (values : List ℚ)
    (hlt : listMin values < listMax values) :
    map_percent values 100 = listMin values := by
  unfold map_percent
  rw [if_neg (by exact not_le.mpr hlt)]
  ring

theorem map_percent_const {values : List ℚ} {c : ℚ} (percent : ℚ)
    (hne : values ≠ []) (hc : ∀ v ∈ values, v = c) :
    map_percent values percent = c := by
  have hmax : listMax values = c := hc _ (listMax_mem hne)
  have hmin : listMin values = c := hc _ (listMin_mem hne)
  unfold map_percent
  rw [hmax, hmin, if_pos (le_refl c)]

/-- C10: when all measured element values are equal, `map_percent` returns
that common value for every percent, and — the pass test being a strict
greater-than — the percentile mask (`thresholdMask`, the shared pattern of
`_by_side`, `_faces_by_normal` and `_edges_by_direction`) selects no
element at all; in particular `_by_side` over points with equal
projections selects nothing. -/
theorem percentile_const_values_select_none (values : List ℚ) (c percent : ℚ)
    (points : List Vec3) (direction : Vec3)
    (hne : values ≠ []) (hc : ∀ v ∈ values, v = c)
    (hpts : points.map (fun p => dot3 p direction) = values) :
    map_percent values percent = c ∧
    thresholdMask values percent = values.map (fun _ => false) ∧
    by_side points direction percent = points.map (fun _ => false) := by
  have hmp := map_percent_const percent hne hc
  have hmask : thresholdMask values percent = values.map (fun _ => false) := by
    unfold thresholdMask
    apply List.map_congr_left
    intro v hv
    rw [hmp, hc v hv]
    simp
  refine ⟨hmp, hmask, ?_⟩
  unfold by_side
  rw [hpts, hmask, ← hpts, List.map_map]
  rfl

theorem percentile_const_witness :
    map_percent [3, 3] 50 = 3 ∧
    thresholdMask [3, 3] 50 = [false, false] ∧
    by_side [(0,0,3), ((0:ℚ),0,3)] (0,0,1) 50 = [false, false] := by
  have h := percentile_const_values_select_none [3, 3] 3 50
    [(0,0,3), ((0:ℚ),0,3)] (0,0,1) (by simp)
    (by intro v hv; rcases List.mem_cons.mp hv with h | h; exact h; simpa using h)
    (by norm_num [dot3])
  simpa using h

/-- C3 counterexample: a "by side" selection at percent = 0 over the two
points `(0,0,0)` and `(0,0,1)` with direction `(0,0,1)` (projected values
`[0, 1]`) selects NOTHING — the maximal-value element at index 1 is not
selected, contradicting the claim that exactly the maximal elements are. -/
theorem by_side_percent0_cex :
    by_side [(0,0,0), ((0:ℚ),0,1)] (0,0,1) 0 = [false, false] ∧
    [(0,0,0), ((0:ℚ),0,1)].map (fun p => dot3 p (0,0,1)) = [0, 1] := by
  constructor
  · norm_num [by_side, thresholdMask, map_percent, listMax, listMin, dot3]
  · norm_num [dot3]

/-- C3 amended: at percent = 0 the threshold is the maximum itself and the
strict comparison excludes every element, so a "by side" selection selects
no element at all. -/
theorem by_side_percent0_selects_none (points : List Vec3) (direction : Vec3) :
    by_side points direction 0 = points.map (fun _ => false) := by
  unfold by_side thresholdMask
  rw [map_percent_zero, List.map_map]
  apply List.map_congr_left
  intro p hp
  have : dot3 p direction ≤ listMax (points.map (fun q => dot3 q direction)) :=
    le_listMax_of_mem (List.mem_map_of_mem _ hp)
  simp only [Function.comp]
  exact decide_eq_false (not_lt.mpr this)

/-- C4 counterexample: a "by side" face selection at percent = 100 over a
solid with two faces at projected values 0 and 1 selects only the second
face — not all faces, contradicting the claim. -/
theorem faces_by_side_percent100_cex :
    facesBySide topo2 (0,0,1) 100 false = [false, true] ∧
    facesBySide topo2 (0,0,1) 100 false ≠ [true, true] := by
  constructor
  · norm_num [facesBySide, sideTest, faceSideValues, topo2, map_percent,
      listMax, listMin, dot3]
  · norm_num [facesBySide, sideTest, faceSideValues, topo2, map_percent,
      listMax, listMin, dot3]

/-- C4 amended: at percent = 100 the threshold is the minimum sampled
value, so (when the values are not all equal) a face is selected iff its
sample values strictly exceed that minimum (any of them in partial mode,
all of them otherwise); faces sampling only the minimum are not selected. -/
theorem faces_by_side_percent100_above_min (t : SolidTopo) (direction : Vec3)
    (incPart : Bool)
    (hlt : listMin (faceSideValues t direction) < listMax (faceSideValues t direction)) :
    facesBySide t direction 100 incPart = t.faces.map (fun f =>
      sideTest (listMin (faceSideValues t direction)) direction incPart f.samples) := by
  unfold facesBySide
  rw [map_percent_hundred _ hlt]

theorem faces_by_side_percent100_witness :
    facesBySide topo2 (0,0,1) 100 false = topo2.faces.map (fun f =>
      sideTest (listMin (faceSideValues topo2 (0,0,1))) (0,0,1) false f.samples) :=
  faces_by_side_percent100_above_min topo2 (0,0,1) false
    (by norm_num [faceSideValues, topo2, listMin, listMax, dot3])

/-! ## The bend-kernel claims (C7, C8, C2) -/

/-- C7 (amended): on a source grid whose points all share the same U (or
V) coordinate, the bend kernel fails fast — `get_uv` raises an uncaught
`ZeroDivisionError` at the first rescaling division, `process` propagates
it and produces no (partial) output; the error is Python's generic
division-by-zero, not a descriptive input-validation error naming the
violated precondition. -/
theorem zero_range_fails_with_zero_division (orient : Axis)
    (vertices : List (List Vec3)) (sqrtQ : ℚ → ℚ)
    (splineEval splineNormal : ℚ → ℚ → Vec3)
    (autoscale : Bool) (surface : List (List Vec3))
    (hv : vertices.flatten ≠ [])
    (hz : listMax (uCoords orient vertices) - listMin (uCoords orient vertices) = 0 ∨
          listMax (vCoords orient vertices) - listMin (vCoords orient vertices) = 0) :
    get_uv orient vertices = .error .zeroDivision ∧
    bend_kernel sqrtQ splineEval splineNormal orient autoscale surface vertices
      = .error .zeroDivision ∧
    PyError.isValidation PyError.zeroDivision = false := by
  have h := get_uv_zero_range_error hv hz
  exact ⟨h, bend_kernel_error_of_get_uv h, rfl⟩

theorem zero_range_fails_witness :
    get_uv .Z [[((0:ℚ),0,0), (1,0,0)]] = .error .zeroDivision ∧
    bend_kernel id flatEval flatNormal .Z false surf33 [[((0:ℚ),0,0), (1,0,0)]]
      = .error .zeroDivision ∧
    PyError.isValidation PyError.zeroDivision = false :=
  zero_range_fails_with_zero_division .Z _ id flatEval flatNormal false surf33
    (by simp)
    (Or.inr (by norm_num [vCoords, otherAxes, coord, listMin, listMax]))

/-- C7 counterexample: on a concrete grid with zero U range the kernel
raises a plain `ZeroDivisionError`, which is not a descriptive
input-validation error — refuting the claim's error-classification part. -/
theorem get_uv_zero_range_cex :
    get_uv .Z [[((0:ℚ),0,0), (0,1,0)]] = .error .zeroDivision ∧
    PyError.isValidation PyError.zeroDivision = false := by
  constructor
  · norm_num [get_uv, uCoords, vCoords, otherAxes, coord, pyMin, pyMax, listMin,
      listMax, mapE, uvPoint, qdiv, bind_ok_eq, bind_error_eq, pure_ok_eq]
  · rfl

/-- C8 (amended): on the spec's concrete scenario input the kernel does
NOT return `(0.5, 0.5, 2.0)` — a single-point source grid has zero extent
along both U and V, so `get_uv` raises `ZeroDivisionError` and the kernel
produces no output (for any spline, axis, and auto-scale setting). -/
theorem bend_single_point_zero_division (sqrtQ : ℚ → ℚ)
    (splineEval splineNormal : ℚ → ℚ → Vec3) (orient : Axis) (autoscale : Bool)
    (surface : List (List Vec3)) (p : Vec3) :
    get_uv orient [[p]] = .error .zeroDivision ∧
    bend_kernel sqrtQ splineEval splineNormal orient autoscale surface [[p]]
      = .error .zeroDivision := by
  have hv : ([[p]] : List (List Vec3)).flatten ≠ [] := by simp
  have hz : listMax (uCoords orient [[p]]) - listMin (uCoords orient [[p]]) = 0 := by
    simp [uCoords, listMax, listMin]
  have h := get_uv_zero_range_error hv (Or.inl hz)
  exact ⟨h, bend_kernel_error_of_get_uv h⟩

/-- C8 counterexample: with the flat 3x3 surface at z = 0 over
`[0,1] x [0,1]` (spline position `(u,v,0)`, unit normal `+Z` as the spec's
scenario states), source grid `[[(1/2, 1/2, 2)]]`, orientation axis Z and
auto-scale off, the kernel evaluates to `ZeroDivisionError`, not
approximately `(0.5, 0.5, 2.0)`. -/
theorem bend_flat_scenario_cex :
    bend_kernel id flatEval flatNormal .Z false surf33 srcPoint
      = .error .zeroDivision := by
  norm_num [bend_kernel, srcPoint, get_uv, uCoords, vCoords, otherAxes, coord,
    pyMin, pyMax, listMin, listMax, mapE, uvPoint, qdiv, bendScale,
    bind_ok_eq, bind_error_eq, pure_ok_eq]

theorem shape_zip_map {α β γ : Type _} (g : α → β → γ)
    {uv : List (List α)} {vertices : List (List β)}
    (hF : List.Forall₂ (fun col row => row.length = col.length) vertices uv) :
    ((uv.zip vertices).map (fun rows => (rows.1.zip rows.2).map
      (fun pc => g pc.1 pc.2))).map List.length = vertices.map List.length := by
  induction hF with
  | nil => rfl
  | @cons a b as bs h hs ih =>
    simp only [List.zip_cons_cons, List.map_cons]
    rw [ih]
    congr 1
    rw [List.length_map, List.length_zip, h, min_self]

/-- C2: whenever the bend kernel succeeds, the output grid has exactly
the shape of the source grid — the same number of rows and the same
length of each row. -/
theorem bend_kernel_shape (sqrtQ : ℚ → ℚ) (splineEval splineNormal : ℚ → ℚ → Vec3)
    (orient : Axis) (autoscale : Bool) (surface vertices out : List (List Vec3))
    (hb : bend_kernel sqrtQ splineEval splineNormal orient autoscale surface vertices
      = .ok out) :
    out.map List.length = vertices.map List.length := by
  unfold bend_kernel at hb
  cases hu : get_uv orient vertices with
  | error e => rw [hu] at hb; simp [bind_error_eq] at hb
  | ok triple =>
    obtain ⟨su, sv, uv⟩ := triple
    rw [hu] at hb
    simp only [bind_ok_eq] at hb
    cases hs : bendScale sqrtQ orient autoscale surface su sv with
    | error e => rw [hs] at hb; simp [bind_error_eq] at hb
    | ok sc =>
      rw [hs] at hb
      simp only [bind_ok_eq, pure_ok_eq, Except.ok.injEq] at hb
      subst hb
      have hmap := (get_uv_ok_inv hu).2.2.2
      have hF : List.Forall₂ (fun col row => row.length = col.length) vertices uv :=
        (mapE_ok_forall₂ hmap).imp (fun _ _ h => mapE_ok_length h)
      exact shape_zip_map (fun uvp src => vadd (splineEval uvp.1 uvp.2)
        (smul3 (sc * coord src (axisIdx orient)) (splineNormal uvp.1 uvp.2))) hF

theorem bend_kernel_shape_witness :
    ([[((0:ℚ),(0:ℚ),(0:ℚ)), (1,0,0)], [(0,1,0), (1,1,5)]] : List (List Vec3)).map
      List.length = grid22.map List.length := by
  have hb : bend_kernel id flatEval flatNormal .Z false surf33 grid22
      = .ok [[(0,0,0), (1,0,0)], [(0,1,0), (1,1,5)]] := by
    norm_num [bend_kernel, grid22, get_uv, uCoords, vCoords, otherAxes, coord,
      pyMin, pyMax, listMin, listMax, mapE, uvPoint, qdiv, bendScale, flatEval,
      flatNormal, vadd, smul3, axisIdx, bind_ok_eq, bind_error_eq, pure_ok_eq]
  exact bend_kernel_shape _ _ _ _ _ _ _ _ hb

/-! ## The pointwise bend formula (C1) -/

theorem nth2_zip_map {α β γ : Type _} (g : α → β → γ)
    {a : List (List α)} {b : List (List β)} {i j : Nat} {x : α} {y : β}
    (ha : nth2 a i j = some x) (hb : nth2 b i j = some y) :
    nth2 ((a.zip b).map (fun rows => (rows.1.zip rows.2).map (fun pc => g pc.1 pc.2)))
      i j = some (g x y) := by
  unfold nth2 at ha hb ⊢
  cases hra : a[i]? with
  | none => rw [hra] at ha; cases ha
  | some rowa =>
    rw [hra] at ha
    cases hrb : b[i]? with
    | none => rw [hrb] at hb; cases hb
    | some rowb =>
      rw [hrb] at hb
      simp only [Option.some_bind] at ha hb
      have hz : (a.zip b)[i]? = some (rowa, rowb) :=
        List.getElem?_zip_eq_some.mpr ⟨hra, hrb⟩
      rw [List.getElem?_map, hz]
      simp only [Option.map_some', Option.some_bind]
      have hzj : (rowa.zip rowb)[j]? = some (x, y) :=
        List.getElem?_zip_eq_some.mpr ⟨ha, hb⟩
      rw [List.getElem?_map, hzj]
      rfl

theorem qdiv_ok_inv {a b q : ℚ} (h : qdiv a b = .ok q) : b ≠ 0 ∧ q = a / b := by
  unfold qdiv at h
  by_cases hb : b = 0
  · rw [if_pos hb] at h; cases h
  · rw [if_neg hb] at h
    cases h
    exact ⟨hb, rfl⟩

theorem diameter_ok_nonneg {pts : List Vec3} {i : Nat} {d : ℚ}
    (h : diameter pts i = .ok d) : 0 ≤ d := by
  unfold diameter at h
  cases hcs : pts.map (fun p => coord p i) with
  | nil => rw [hcs] at h; simp [pyMin, bind_error_eq] at h
  | cons c cs =>
    rw [hcs] at h
    simp only [pyMin, pyMax, bind_ok_eq, pure_ok_eq, Except.ok.injEq] at h
    rw [← h]
    exact sub_nonneg.mpr (listMin_le_listMax (List.cons_ne_nil c cs))

theorem bendScale_false_eq (sqrtQ : ℚ → ℚ) (orient : Axis)
    (surface : List (List Vec3)) (su sv : ℚ) :
    bendScale sqrtQ orient false surface su sv = .ok 1 := rfl

theorem bendScale_true_inv {sqrtQ : ℚ → ℚ} {orient : Axis}
    {surface : List (List Vec3)} {su sv sc : ℚ}
    (h : bendScale sqrtQ orient true surface su sv = .ok sc) :
    ∃ du dv scaleU scaleV,
      diameter surface.flatten (otherAxes orient).1 = .ok du ∧
      diameter surface.flatten (otherAxes orient).2 = .ok dv ∧
      qdiv du su = .ok scaleU ∧ qdiv dv sv = .ok scaleV ∧
      sc = sqrtQ (scaleU * scaleV) := by
  unfold bendScale at h
  rw [if_pos rfl] at h
  cases hdu : diameter surface.flatten (otherAxes orient).1 with
  | error e => rw [hdu] at h; simp [bind_error_eq] at h
  | ok du =>
    rw [hdu] at h
    simp only [bind_ok_eq] at h
    cases hdv : diameter surface.flatten (otherAxes orient).2 with
    | error e => rw [hdv] at h; simp [bind_error_eq] at h
    | ok dv =>
      rw [hdv] at h
      simp only [bind_ok_eq] at h
      cases hq1 : qdiv du su with
      | error e => rw [hq1] at h; simp [bind_error_eq] at h
      | ok scaleU =>
        rw [hq1] at h
        simp only [bind_ok_eq] at h
        cases hq2 : qdiv dv sv with
        | error e => rw [hq2] at h; simp [bind_error_eq] at h
        | ok scaleV =>
          rw [hq2] at h
          simp only [bind_ok_eq, pure_ok_eq, Except.ok.injEq] at h
          exact ⟨du, dv, scaleU, scaleV, rfl, rfl, hq1, hq2, h.symm⟩

/-- C1: for every successful run of the bend kernel, the output point at
every grid position equals the spline position at that point's normalized
(u, v) plus scale * z * spline-normal, where z is the source point's
coordinate along the orientation axis; the scale is 1 with auto-scale off,
and with auto-scale on it is sqrt(scale_u * scale_v) (modelled through the
abstract `sqrtQ`), scale_u and scale_v being the nonnegative ratios of the
surface's diameter along U/V to the source grid's U/V extent. -/
theorem bend_kernel_pointwise (sqrtQ : ℚ → ℚ)
    (splineEval splineNormal : ℚ → ℚ → Vec3) (orient : Axis) (autoscale : Bool)
    (surface vertices out : List (List Vec3)) (su sv sc : ℚ)
    (uv : List (List (ℚ × ℚ))) (i j : Nat) (u v : ℚ) (src : Vec3)
    (hb : bend_kernel sqrtQ splineEval splineNormal orient autoscale surface vertices
      = .ok out)
    (hu : get_uv orient vertices = .ok (su, sv, uv))
    (hsc : bendScale sqrtQ orient autoscale surface su sv = .ok sc)
    (hij : nth2 uv i j = some (u, v))
    (hsrc : nth2 vertices i j = some src) :
    nth2 out i j = some (vadd (splineEval u v)
      (smul3 (sc * coord src (axisIdx orient)) (splineNormal u v))) ∧
    (autoscale = false → sc = 1) ∧
    (autoscale = true → ∃ du dv scaleU scaleV,
      diameter surface.flatten (otherAxes orient).1 = .ok du ∧
      diameter surface.flatten (otherAxes orient).2 = .ok dv ∧
      scaleU = du / su ∧ scaleV = dv / sv ∧
      0 ≤ scaleU ∧ 0 ≤ scaleV ∧
      sc = sqrtQ (scaleU * scaleV)) := by
  unfold bend_kernel at hb
  rw [hu] at hb
  simp only [bind_ok_eq] at hb
  rw [hsc] at hb
  simp only [bind_ok_eq, pure_ok_eq, Except.ok.injEq] at hb
  subst hb
  obtain ⟨hne, hsu, hsv, _⟩ := get_uv_ok_inv hu
  have hvne : vCoords orient vertices ≠ [] :=
    vCoords_ne_nil_iff.mpr (uCoords_ne_nil_iff.mp hne)
  have hsu0 : 0 ≤ su := hsu ▸ sub_nonneg.mpr (listMin_le_listMax hne)
  have hsv0 : 0 ≤ sv := hsv ▸ sub_nonneg.mpr (listMin_le_listMax hvne)
  refine ⟨?_, ?_, ?_⟩
  · exact nth2_zip_map (fun uvp w => vadd (splineEval uvp.1 uvp.2)
      (smul3 (sc * coord w (axisIdx orient)) (splineNormal uvp.1 uvp.2))) hij hsrc
  · intro hfalse
    subst hfalse
    rw [bendScale_false_eq] at hsc
    cases hsc
    rfl
  · intro htrue
    subst htrue
    obtain ⟨du, dv, scaleU, scaleV, hdu, hdv, hq1, hq2, hseq⟩ := bendScale_true_inv hsc
    obtain ⟨hsune, hUdiv⟩ := qdiv_ok_inv hq1
    obtain ⟨hsvne, hVdiv⟩ := qdiv_ok_inv hq2
    refine ⟨du, dv, scaleU, scaleV, hdu, hdv, hUdiv, hVdiv, ?_, ?_, hseq⟩
    · rw [hUdiv]
      exact div_nonneg (diameter_ok_nonneg hdu) hsu0
    · rw [hVdiv]
      exact div_nonneg (diameter_ok_nonneg hdv) hsv0


theorem bend_kernel_pointwise_witness :
    nth2 [[((0:ℚ),0,0), (1,0,0)], [(0,1,0), (1,1,5)]] 1 1
      = some (vadd (flatEval 1 1)
        (smul3 (1 * coord ((1:ℚ),1,5) (axisIdx .Z)) (flatNormal 1 1))) ∧
    (true = false → (1:ℚ) = 1) ∧
    (true = true → ∃ du dv scaleU scaleV,
      diameter surf33.flatten (otherAxes .Z).1 = .ok du ∧
      diameter surf33.flatten (otherAxes .Z).2 = .ok dv ∧
      scaleU = du / 1 ∧ scaleV = dv / 1 ∧
      0 ≤ scaleU ∧ 0 ≤ scaleV ∧
      (1:ℚ) = id (scaleU * scaleV)) :=
  bend_kernel_pointwise id flatEval flatNormal .Z true surf33 grid22
    [[(0,0,0), (1,0,0)], [(0,1,0), (1,1,5)]] 1 1 1
    [[(0,0), (1,0)], [(0,1), (1,1)]] 1 1 1 1 ((1:ℚ),1,5)
    (by norm_num [bend_kernel, grid22, get_uv, uCoords, vCoords, otherAxes, coord,
      pyMin, pyMax, listMin, listMax, mapE, uvPoint, qdiv, bendScale, diameter,
      surf33, flatEval, flatNormal, vadd, smul3, axisIdx,
      bind_ok_eq, bind_error_eq, pure_ok_eq])
    (by norm_num [get_uv, grid22, uCoords, vCoords, otherAxes, coord, pyMin, pyMax,
      listMin, listMax, mapE, uvPoint, qdiv, bind_ok_eq, bind_error_eq, pure_ok_eq])
    (by norm_num [bendScale, diameter, surf33, otherAxes, coord, pyMin, pyMax,
      listMin, listMax, qdiv, bind_ok_eq, bind_error_eq, pure_ok_eq])
    (by norm_num [nth2])
    (by norm_num [nth2, grid22])

/-! ## The error-discarding vector-math process (C9) -/

/-- C9: whenever `recurse_fxy` (with the applied function, e.g. `1/SCALAR`
on a zero scalar) raises, the node's `process` discards the error (bare
`except: pass`) and emits the preset empty result `[[]]`. -/
theorem vm_process_discards_errors
    (f : Nested PyAtom → Nested PyAtom → Except PyError (Nested PyAtom))
    (l1 l2 : List (Nested PyAtom)) (leve : Nat) (e : PyError)
    (h : recurseFxy f (leve - 1) l1 l2 = .error e) :
    vmProcess f l1 l2 leve = [Nested.node []] := by
  unfold vmProcess
  rw [h]

theorem vm_process_discards_errors_witness :
    vmProcess oneOverScalar [.atom (.vec (1,2,3))] [.atom (.num 0)] 2
      = [Nested.node []] :=
  vm_process_discards_errors oneOverScalar _ _ 2 .zeroDivision
    (by norm_num [recurseFxy, lastFill, zipLongest, mapE, oneOverScalar,
      List.getLast?, bind_ok_eq, bind_error_eq, pure_ok_eq])

/-! ## Mask characterization and monotonicity toolkit -/

theorem mem_selIdxs {m : List Bool} {i : Nat} : i ∈ selIdxs m ↔ m[i]? = some true := by
  unfold selIdxs
  rw [List.mem_filter, List.mem_range]
  constructor
  · rintro ⟨hlt, hget⟩
    rw [List.getD_eq_getElem?_getD] at hget
    cases hg : m[i]? with
    | none => rw [hg] at hget; cases hget
    | some b =>
      rw [hg] at hget
      simp only [Option.getD_some] at hget
      rw [hget]
  · intro hg
    refine ⟨(List.getElem?_eq_some.mp hg).1, ?_⟩
    rw [List.getD_eq_getElem?_getD, hg]
    rfl

theorem maskByIncidence_true_iff {elemIdxs : List (List Nat)} {sel : List Nat}
    {j : Nat} :
    (maskByIncidence elemIdxs sel)[j]? = some true ↔
      ∃ idxs, elemIdxs[j]? = some idxs ∧ ∃ i ∈ idxs, i ∈ sel := by
  unfold maskByIncidence
  rw [List.getElem?_map]
  cases hj : elemIdxs[j]? with
  | none => simp
  | some idxs =>
    simp [List.any_eq_true]

theorem maskByContainment_true_iff {n : Nat} {idxsOf : Nat → List Nat}
    {sel : List Nat} {i : Nat} :
    (maskByContainment n idxsOf sel)[i]? = some true ↔
      i < n ∧ ∃ j ∈ sel, i ∈ idxsOf j := by
  unfold maskByContainment
  rw [List.getElem?_map]
  by_cases hi : i < n
  · rw [List.getElem?_range hi]
    simp [List.any_eq_true, hi]
  · have hnone : (List.range n)[i]? = none :=
      List.getElem?_eq_none (by simpa [List.length_range] using Nat.le_of_not_lt hi)
    rw [hnone]
    simp [hi]

theorem selIdxs_subset {m1 m2 : List Bool} (h : maskLE m1 m2) :
    ∀ i ∈ selIdxs m1, i ∈ selIdxs m2 :=
  fun i hi => mem_selIdxs.mpr (h i (mem_selIdxs.mp hi))

theorem maskByIncidence_mono {elemIdxs : List (List Nat)} {sel1 sel2 : List Nat}
    (h : ∀ i ∈ sel1, i ∈ sel2) :
    maskLE (maskByIncidence elemIdxs sel1) (maskByIncidence elemIdxs sel2) := by
  intro j hj
  rw [maskByIncidence_true_iff] at hj ⊢
  obtain ⟨idxs, h1, i, h2, h3⟩ := hj
  exact ⟨idxs, h1, i, h2, h i h3⟩

theorem maskByContainment_mono {n : Nat} {idxsOf : Nat → List Nat}
    {sel1 sel2 : List Nat} (h : ∀ j ∈ sel1, j ∈ sel2) :
    maskLE (maskByContainment n idxsOf sel1) (maskByContainment n idxsOf sel2) := by
  intro i hi
  rw [maskByContainment_true_iff] at hi ⊢
  obtain ⟨hlt, j, h1, h2⟩ := hi
  exact ⟨hlt, j, h j h1, h2⟩

theorem map_mask_mono {l : List α} {f g : α → Bool}
    (h : ∀ x, f x = true → g x = true) : maskLE (l.map f) (l.map g) := by
  intro i hi
  rw [List.getElem?_map] at hi ⊢
  cases hx : l[i]? with
  | none => rw [hx] at hi; cases hi
  | some x =>
    rw [hx] at hi
    simp only [Option.map_some', Option.some.injEq] at hi
    simp only [Option.map_some', Option.some.injEq]
    exact h x hi

theorem normSq_nonneg (a : Vec3) : 0 ≤ normSq a := by
  unfold normSq dot3
  have h1 := mul_self_nonneg a.1
  have h2 := mul_self_nonneg a.2.1
  have h3 := mul_self_nonneg a.2.2
  linarith

theorem sphereDistLt_mono {center p : Vec3} {r1 r2 : ℚ} (hr0 : 0 ≤ r1) (hr : r1 ≤ r2)
    (h : sphereDistLt center p r1 = true) : sphereDistLt center p r2 = true := by
  simp only [sphereDistLt, decide_eq_true_eq] at h ⊢
  exact lt_of_lt_of_le h (mul_le_mul hr hr hr0 (hr0.trans hr))

theorem planeDistLt_mono {normal center p : Vec3} {r1 r2 : ℚ} (hr : r1 ≤ r2)
    (h : planeDistLt normal center p r1 = true) :
    planeDistLt normal center p r2 = true := by
  simp only [planeDistLt, decide_eq_true_eq] at h ⊢
  obtain ⟨h0, hlt⟩ := h
  refine ⟨lt_of_lt_of_le h0 hr, lt_of_lt_of_le hlt ?_⟩
  exact mul_le_mul_of_nonneg_right (pow_le_pow_left₀ h0.le hr 2) (normSq_nonneg _)

theorem lineDistLt_mono {direction center p : Vec3} {r1 r2 : ℚ} (hr : r1 ≤ r2)
    (h : lineDistLt direction center p r1 = true) :
    lineDistLt direction center p r2 = true := by
  simp only [lineDistLt, decide_eq_true_eq] at h ⊢
  obtain ⟨h0, hlt⟩ := h
  refine ⟨lt_of_lt_of_le h0 hr, lt_of_lt_of_le hlt ?_⟩
  exact mul_le_mul_of_nonneg_right (pow_le_pow_left₀ h0.le hr 2) (normSq_nonneg _)

theorem vertsBySphere_mono {t : SolidTopo} {center : Vec3} {r1 r2 : ℚ}
    (hr : r1 ≤ r2) :
    maskLE (vertsBySphere t center r1) (vertsBySphere t center r2) := by
  apply map_mask_mono
  intro v hv
  simp only [decide_eq_true_eq] at hv ⊢
  obtain ⟨h0, hlt⟩ := hv
  exact ⟨lt_of_lt_of_le h0 hr,
    lt_of_lt_of_le hlt (mul_le_mul hr hr h0.le (h0.le.trans hr))⟩

theorem edgesByLocation_mono {t : SolidTopo} {cond1 cond2 : Vec3 → Bool}
    {incPart : Bool} (h : ∀ p, cond1 p = true → cond2 p = true) :
    maskLE (edgesByLocation t cond1 incPart) (edgesByLocation t cond2 incPart) := by
  apply map_mask_mono
  intro e he
  cases incPart with
  | true =>
    simp only [if_true] at he ⊢
    rw [List.any_eq_true] at he ⊢
    obtain ⟨p, hp, hc⟩ := he
    exact ⟨p, hp, h p hc⟩
  | false =>
    simp only [Bool.false_eq_true, if_false] at he ⊢
    rw [List.all_eq_true] at he ⊢
    exact fun p hp => h p (he p hp)

theorem facesByLocation_mono {t : SolidTopo} {cond1 cond2 : Vec3 → Bool}
    {incPart : Bool} (h : ∀ p, cond1 p = true → cond2 p = true) :
    maskLE (facesByLocation t cond1 incPart) (facesByLocation t cond2 incPart) := by
  apply map_mask_mono
  intro f hf
  cases incPart with
  | true =>
    simp only [if_true] at hf ⊢
    rw [List.any_eq_true] at hf ⊢
    obtain ⟨p, hp, hc⟩ := hf
    exact ⟨p, hp, h p hc⟩
  | false =>
    simp only [Bool.false_eq_true, if_false] at hf ⊢
    rw [List.all_eq_true] at hf ⊢
    exact fun p hp => h p (hf p hp)

/-! ## Radius monotonicity (C5) -/

theorem derivedFromVerts_mono {t : SolidTopo} {vm1 vm2 : List Bool} (h : maskLE vm1 vm2) :
    maskLE (edgesByVertsMask t (selIdxs vm1)) (edgesByVertsMask t (selIdxs vm2)) ∧
    maskLE (facesByVertsMask t (selIdxs vm1)) (facesByVertsMask t (selIdxs vm2)) :=
  ⟨maskByIncidence_mono (selIdxs_subset h), maskByIncidence_mono (selIdxs_subset h)⟩

theorem derivedFromEdges_mono {t : SolidTopo} {em1 em2 : List Bool} (h : maskLE em1 em2) :
    maskLE (vertsByEdgesMask t (selIdxs em1)) (vertsByEdgesMask t (selIdxs em2)) ∧
    maskLE (facesByEdgesMask t (selIdxs em1)) (facesByEdgesMask t (selIdxs em2)) :=
  ⟨maskByContainment_mono (selIdxs_subset h), maskByIncidence_mono (selIdxs_subset h)⟩

theorem derivedFromFaces_mono {t : SolidTopo} {fm1 fm2 : List Bool} (h : maskLE fm1 fm2) :
    maskLE (vertsByFacesMask t (selIdxs fm1)) (vertsByFacesMask t (selIdxs fm2)) ∧
    maskLE (edgesByFacesMask t (selIdxs fm1)) (edgesByFacesMask t (selIdxs fm2)) :=
  ⟨maskByContainment_mono (selIdxs_subset h), maskByContainment_mono (selIdxs_subset h)⟩

/-- C5: for every solid, element kind, and fixed center/direction/partial
mode, the sphere, plane, and cylinder selection masks are monotone in the
radius: with 0 <= radius1 <= radius2 (the node declares radius with
minimum 0), every element selected at radius1 — in the primary mask and in
both derived masks — is also selected at radius2. -/
theorem calc_mask_radius_monotone (fitLineDir fitPlaneNormal : List Vec3 → Vec3)
    (et : ElemType) (ct : Criteria) (incPart : Bool) (t : SolidTopo)
    (direction center : Vec3) (percent r1 r2 : ℚ)
    (m1 m2 : List Bool × List Bool × List Bool)
    (hr0 : 0 ≤ r1) (hr : r1 ≤ r2)
    (hct : ct = .SPHERE ∨ ct = .PLANE ∨ ct = .CYLINDER)
    (h1 : calcMask fitLineDir fitPlaneNormal et ct incPart t direction center percent r1
      = .ok m1)
    (h2 : calcMask fitLineDir fitPlaneNormal et ct incPart t direction center percent r2
      = .ok m2) :
    maskLE m1.1 m2.1 ∧ maskLE m1.2.1 m2.2.1 ∧ maskLE m1.2.2 m2.2.2 := by
  rcases hct with rfl | rfl | rfl <;> cases et <;>
    simp only [calcMask, bind_ok_eq, pure_ok_eq, Except.ok.injEq] at h1 h2 <;>
    subst h1 <;> subst h2
  · -- VERTS, SPHERE
    have hp : maskLE (vertsBySphere t center r1) (vertsBySphere t center r2) :=
      vertsBySphere_mono hr
    exact ⟨hp, (derivedFromVerts_mono hp).1, (derivedFromVerts_mono hp).2⟩
  · -- EDGES, SPHERE
    have hp : maskLE (edgesBySphere t center r1 incPart) (edgesBySphere t center r2 incPart) :=
      edgesByLocation_mono (fun p => sphereDistLt_mono hr0 hr)
    exact ⟨(derivedFromEdges_mono hp).1, hp, (derivedFromEdges_mono hp).2⟩
  · -- FACES, SPHERE
    have hp : maskLE (facesBySphere t center r1 incPart) (facesBySphere t center r2 incPart) :=
      facesByLocation_mono (fun p => sphereDistLt_mono hr0 hr)
    exact ⟨(derivedFromFaces_mono hp).1, (derivedFromFaces_mono hp).2, hp⟩
  · -- VERTS, PLANE
    have hp : maskLE (vertsByPlane t center direction r1) (vertsByPlane t center direction r2) :=
      map_mask_mono (fun v => planeDistLt_mono hr)
    exact ⟨hp, (derivedFromVerts_mono hp).1, (derivedFromVerts_mono hp).2⟩
  · -- EDGES, PLANE
    have hp : maskLE (edgesByPlane t center direction r1 incPart)
        (edgesByPlane t center direction r2 incPart) :=
      edgesByLocation_mono (fun p => planeDistLt_mono hr)
    exact ⟨(derivedFromEdges_mono hp).1, hp, (derivedFromEdges_mono hp).2⟩
  · -- FACES, PLANE
    have hp : maskLE (facesByPlane t center direction r1 incPart)
        (facesByPlane t center direction r2 incPart) :=
      facesByLocation_mono (fun p => planeDistLt_mono hr)
    exact ⟨(derivedFromFaces_mono hp).1, (derivedFromFaces_mono hp).2, hp⟩
  · -- VERTS, CYLINDER
    have hp : maskLE (vertsByCylinder t center direction r1) (vertsByCylinder t center direction r2) :=
      map_mask_mono (fun v => lineDistLt_mono hr)
    exact ⟨hp, (derivedFromVerts_mono hp).1, (derivedFromVerts_mono hp).2⟩
  · -- EDGES, CYLINDER
    have hp : maskLE (edgesByCylinder t center direction r1 incPart)
        (edgesByCylinder t center direction r2 incPart) :=
      edgesByLocation_mono (fun p => lineDistLt_mono hr)
    exact ⟨(derivedFromEdges_mono hp).1, hp, (derivedFromEdges_mono hp).2⟩
  · -- FACES, CYLINDER
    have hp : maskLE (facesByCylinder t center direction r1 incPart)
        (facesByCylinder t center direction r2 incPart) :=
      facesByLocation_mono (fun p => lineDistLt_mono hr)
    exact ⟨(derivedFromFaces_mono hp).1, (derivedFromFaces_mono hp).2, hp⟩


theorem calc_mask_radius_monotone_witness :
    maskLE [true, false] [true, true] ∧ maskLE [true] [true] ∧
    maskLE ([] : List Bool) ([] : List Bool) := by
  have h1 : calcMask (fun _ => 0) (fun _ => 0) .VERTS .SPHERE false topo1
      (0,0,1) (0,0,0) 0 1 = .ok ([true, false], [true], []) := by
    norm_num [calcMask, vertsBySphere, topo1, distSq, normSq, vsub, dot3, selIdxs,
      edgesByVertsMask, facesByVertsMask, maskByIncidence, List.range, List.range.loop,
      bind_ok_eq, bind_error_eq, pure_ok_eq]
  have h2 : calcMask (fun _ => 0) (fun _ => 0) .VERTS .SPHERE false topo1
      (0,0,1) (0,0,0) 0 4 = .ok ([true, true], [true], []) := by
    norm_num [calcMask, vertsBySphere, topo1, distSq, normSq, vsub, dot3, selIdxs,
      edgesByVertsMask, facesByVertsMask, maskByIncidence, List.range, List.range.loop,
      bind_ok_eq, bind_error_eq, pure_ok_eq]
  have h := calc_mask_radius_monotone (fun _ => 0) (fun _ => 0) .VERTS .SPHERE false
    topo1 (0,0,1) (0,0,0) 0 1 4 _ _ (by norm_num) (by norm_num) (Or.inl rfl) h1 h2
  exact h

/-! ## Cross-category derivation (C6) -/

theorem edgesByVertsMask_true_iff {t : SolidTopo} {vm : List Bool} {j : Nat} :
    (edgesByVertsMask t (selIdxs vm))[j]? = some true ↔
      ∃ e, t.edges[j]? = some e ∧ ∃ i ∈ e.vertIdxs, vm[i]? = some true := by
  unfold edgesByVertsMask
  rw [maskByIncidence_true_iff]
  constructor
  · rintro ⟨idxs, hj, i, hi, hsel⟩
    rw [List.getElem?_map] at hj
    cases he : t.edges[j]? with
    | none => rw [he] at hj; cases hj
    | some e =>
      rw [he] at hj
      simp only [Option.map_some', Option.some.injEq] at hj
      subst hj
      exact ⟨e, rfl, i, hi, mem_selIdxs.mp hsel⟩
  · rintro ⟨e, he, i, hi, hv⟩
    refine ⟨e.vertIdxs, ?_, i, hi, mem_selIdxs.mpr hv⟩
    rw [List.getElem?_map, he]
    rfl

theorem facesByVertsMask_true_iff {t : SolidTopo} {vm : List Bool} {k : Nat} :
    (facesByVertsMask t (selIdxs vm))[k]? = some true ↔
      ∃ f, t.faces[k]? = some f ∧ ∃ i ∈ f.vertIdxs, vm[i]? = some true := by
  unfold facesByVertsMask
  rw [maskByIncidence_true_iff]
  constructor
  · rintro ⟨idxs, hk, i, hi, hsel⟩
    rw [List.getElem?_map] at hk
    cases hf : t.faces[k]? with
    | none => rw [hf] at hk; cases hk
    | some f =>
      rw [hf] at hk
      simp only [Option.map_some', Option.some.injEq] at hk
      subst hk
      exact ⟨f, rfl, i, hi, mem_selIdxs.mp hsel⟩
  · rintro ⟨f, hf, i, hi, hv⟩
    refine ⟨f.vertIdxs, ?_, i, hi, mem_selIdxs.mpr hv⟩
    rw [List.getElem?_map, hf]
    rfl

theorem facesByEdgesMask_true_iff {t : SolidTopo} {em : List Bool} {k : Nat} :
    (facesByEdgesMask t (selIdxs em))[k]? = some true ↔
      ∃ f, t.faces[k]? = some f ∧ ∃ j ∈ f.edgeIdxs, em[j]? = some true := by
  unfold facesByEdgesMask
  rw [maskByIncidence_true_iff]
  constructor
  · rintro ⟨idxs, hk, j, hj, hsel⟩
    rw [List.getElem?_map] at hk
    cases hf : t.faces[k]? with
    | none => rw [hf] at hk; cases hk
    | some f =>
      rw [hf] at hk
      simp only [Option.map_some', Option.some.injEq] at hk
      subst hk
      exact ⟨f, rfl, j, hj, mem_selIdxs.mp hsel⟩
  · rintro ⟨f, hf, j, hj, he⟩
    refine ⟨f.edgeIdxs, ?_, j, hj, mem_selIdxs.mpr he⟩
    rw [List.getElem?_map, hf]
    rfl

theorem vertsByEdgesMask_true_iff {t : SolidTopo} {em : List Bool} {i : Nat} :
    (vertsByEdgesMask t (selIdxs em))[i]? = some true ↔
      i < t.verts.length ∧
        ∃ (j : Nat) (e : SEdge), em[j]? = some true ∧ t.edges[j]? = some e ∧ i ∈ e.vertIdxs := by
  unfold vertsByEdgesMask
  rw [maskByContainment_true_iff]
  constructor
  · rintro ⟨hlt, j, hjsel, hmem⟩
    cases he : t.edges[j]? with
    | none => rw [he] at hmem; cases hmem
    | some e =>
      rw [he] at hmem
      simp only [Option.map_some', Option.getD_some] at hmem
      exact ⟨hlt, j, e, mem_selIdxs.mp hjsel, he, hmem⟩
  · rintro ⟨hlt, j, e, hjt, he, hmem⟩
    refine ⟨hlt, j, mem_selIdxs.mpr hjt, ?_⟩
    rw [he]
    simpa using hmem

theorem vertsByFacesMask_true_iff {t : SolidTopo} {fm : List Bool} {i : Nat} :
    (vertsByFacesMask t (selIdxs fm))[i]? = some true ↔
      i < t.verts.length ∧
        ∃ (k : Nat) (f : SFace), fm[k]? = some true ∧ t.faces[k]? = some f ∧ i ∈ f.vertIdxs := by
  unfold vertsByFacesMask
  rw [maskByContainment_true_iff]
  constructor
  · rintro ⟨hlt, k, hksel, hmem⟩
    cases hf : t.faces[k]? with
    | none => rw [hf] at hmem; cases hmem
    | some f =>
      rw [hf] at hmem
      simp only [Option.map_some', Option.getD_some] at hmem
      exact ⟨hlt, k, f, mem_selIdxs.mp hksel, hf, hmem⟩
  · rintro ⟨hlt, k, f, hkt, hf, hmem⟩
    refine ⟨hlt, k, mem_selIdxs.mpr hkt, ?_⟩
    rw [hf]
    simpa using hmem

theorem edgesByFacesMask_true_iff {t : SolidTopo} {fm : List Bool} {j : Nat} :
    (edgesByFacesMask t (selIdxs fm))[j]? = some true ↔
      j < t.edges.length ∧
        ∃ (k : Nat) (f : SFace), fm[k]? = some true ∧ t.faces[k]? = some f ∧ j ∈ f.edgeIdxs := by
  unfold edgesByFacesMask
  rw [maskByContainment_true_iff]
  constructor
  · rintro ⟨hlt, k, hksel, hmem⟩
    cases hf : t.faces[k]? with
    | none => rw [hf] at hmem; cases hmem
    | some f =>
      rw [hf] at hmem
      simp only [Option.map_some', Option.getD_some] at hmem
      exact ⟨hlt, k, f, mem_selIdxs.mp hksel, hf, hmem⟩
  · rintro ⟨hlt, k, f, hkt, hf, hmem⟩
    refine ⟨hlt, k, mem_selIdxs.mpr hkt, ?_⟩
    rw [hf]
    simpa using hmem

theorem calcMask_verts_inv {fitLineDir fitPlaneNormal : List Vec3 → Vec3}
    {ct : Criteria} {incPart : Bool} {t : SolidTopo} {direction center : Vec3}
    {percent radius : ℚ} {vm em fm : List Bool}
    (h : calcMask fitLineDir fitPlaneNormal .VERTS ct incPart t direction center
      percent radius = .ok (vm, em, fm)) :
    em = edgesByVertsMask t (selIdxs vm) ∧ fm = facesByVertsMask t (selIdxs vm) := by
  cases ct
  case NORMAL => simp [calcMask, bind_error_eq] at h
  case DIRECTION => simp [calcMask, bind_error_eq] at h
  all_goals
    simp only [calcMask, bind_ok_eq, pure_ok_eq, Except.ok.injEq, Prod.mk.injEq] at h
  all_goals
    obtain ⟨hp, hd1, hd2⟩ := h
  all_goals
    subst hp
  all_goals
    exact ⟨hd1.symm, hd2.symm⟩

theorem calcMask_edges_inv {fitLineDir fitPlaneNormal : List Vec3 → Vec3}
    {ct : Criteria} {incPart : Bool} {t : SolidTopo} {direction center : Vec3}
    {percent radius : ℚ} {vm em fm : List Bool}
    (h : calcMask fitLineDir fitPlaneNormal .EDGES ct incPart t direction center
      percent radius = .ok (vm, em, fm)) :
    vm = vertsByEdgesMask t (selIdxs em) ∧ fm = facesByEdgesMask t (selIdxs em) := by
  cases ct
  case NORMAL => simp [calcMask, bind_error_eq] at h
  all_goals
    simp only [calcMask, bind_ok_eq, pure_ok_eq, Except.ok.injEq, Prod.mk.injEq] at h
  all_goals
    obtain ⟨hd1, hp, hd2⟩ := h
  all_goals
    subst hp
  all_goals
    exact ⟨hd1.symm, hd2.symm⟩

theorem calcMask_faces_inv {fitLineDir fitPlaneNormal : List Vec3 → Vec3}
    {ct : Criteria} {incPart : Bool} {t : SolidTopo} {direction center : Vec3}
    {percent radius : ℚ} {vm em fm : List Bool}
    (h : calcMask fitLineDir fitPlaneNormal .FACES ct incPart t direction center
      percent radius = .ok (vm, em, fm)) :
    vm = vertsByFacesMask t (selIdxs fm) ∧ em = edgesByFacesMask t (selIdxs fm) := by
  cases ct
  case DIRECTION => simp [calcMask, bind_error_eq] at h
  all_goals
    simp only [calcMask, bind_ok_eq, pure_ok_eq, Except.ok.injEq, Prod.mk.injEq] at h
  all_goals
    obtain ⟨hd1, hd2, hp⟩ := h
  all_goals
    subst hp
  all_goals
    exact ⟨hd1.symm, hd2.symm⟩

/-- C6: after any primary selection of kind K, the two derived masks mark
exactly the elements adjacent to at least one selected K-element: selecting
vertices marks the edges/faces containing a selected vertex; selecting
edges marks their vertices and the faces containing a selected edge;
selecting faces marks exactly the vertices and edges incident to at least
one selected face. -/
theorem calc_mask_derived_adjacency (fitLineDir fitPlaneNormal : List Vec3 → Vec3)
    (et : ElemType) (ct : Criteria) (incPart : Bool) (t : SolidTopo)
    (direction center : Vec3) (percent radius : ℚ) (vm em fm : List Bool)
    (h : calcMask fitLineDir fitPlaneNormal et ct incPart t direction center
      percent radius = .ok (vm, em, fm)) :
    (et = .VERTS →
      (∀ j : Nat, em[j]? = some true ↔
        ∃ e, t.edges[j]? = some e ∧ ∃ i ∈ e.vertIdxs, vm[i]? = some true) ∧
      (∀ k : Nat, fm[k]? = some true ↔
        ∃ f, t.faces[k]? = some f ∧ ∃ i ∈ f.vertIdxs, vm[i]? = some true)) ∧
    (et = .EDGES →
      (∀ i : Nat, vm[i]? = some true ↔
        i < t.verts.length ∧
          ∃ (j : Nat) (e : SEdge), em[j]? = some true ∧ t.edges[j]? = some e ∧ i ∈ e.vertIdxs) ∧
      (∀ k : Nat, fm[k]? = some true ↔
        ∃ f, t.faces[k]? = some f ∧ ∃ j ∈ f.edgeIdxs, em[j]? = some true)) ∧
    (et = .FACES →
      (∀ i : Nat, vm[i]? = some true ↔
        i < t.verts.length ∧
          ∃ (k : Nat) (f : SFace), fm[k]? = some true ∧ t.faces[k]? = some f ∧ i ∈ f.vertIdxs) ∧
      (∀ j : Nat, em[j]? = some true ↔
        j < t.edges.length ∧
          ∃ (k : Nat) (f : SFace), fm[k]? = some true ∧ t.faces[k]? = some f ∧ j ∈ f.edgeIdxs)) := by
  refine ⟨fun het => ?_, fun het => ?_, fun het => ?_⟩ <;> subst het
  · obtain ⟨hem, hfm⟩ := calcMask_verts_inv h
    subst hem
    subst hfm
    exact ⟨fun j => edgesByVertsMask_true_iff, fun k => facesByVertsMask_true_iff⟩
  · obtain ⟨hvm, hfm⟩ := calcMask_edges_inv h
    subst hvm
    subst hfm
    exact ⟨fun i => vertsByEdgesMask_true_iff, fun k => facesByEdgesMask_true_iff⟩
  · obtain ⟨hvm, hem⟩ := calcMask_faces_inv h
    subst hvm
    subst hem
    exact ⟨fun i => vertsByFacesMask_true_iff, fun j => edgesByFacesMask_true_iff⟩

theorem calc_mask_derived_adjacency_witness :
    (∀ i : Nat, ([true, false] : List Bool)[i]? = some true ↔
      i < topo2.verts.length ∧
        ∃ (k : Nat) (f : SFace), ([true, false] : List Bool)[k]? = some true ∧
          topo2.faces[k]? = some f ∧ i ∈ f.vertIdxs) ∧
    (∀ j : Nat, ([true, false] : List Bool)[j]? = some true ↔
      j < topo2.edges.length ∧
        ∃ (k : Nat) (f : SFace), ([true, false] : List Bool)[k]? = some true ∧
          topo2.faces[k]? = some f ∧ j ∈ f.edgeIdxs) := by
  have h : calcMask (fun _ => 0) (fun _ => 0) .FACES .SPHERE false topo2
      (0,0,1) (0,0,0) 0 1 = .ok ([true, false], [true, false], [true, false]) := by
    norm_num [calcMask, facesBySphere, facesByLocation, sphereDistLt, topo2, distSq,
      normSq, vsub, dot3, selIdxs, vertsByFacesMask, edgesByFacesMask,
      maskByContainment, List.range, List.range.loop,
      bind_ok_eq, bind_error_eq, pure_ok_eq]
  exact (calc_mask_derived_adjacency (fun _ => 0) (fun _ => 0) .FACES .SPHERE false
    topo2 (0,0,1) (0,0,0) 0 1 [true, false] [true, false] [true, false] h).2.2 rfl

end Sverchok
